import Mathlib

/-!
# udev-joy-test: joystick discovery and the resynchronising event pump

A shallow embedding of `src/main.cpp`:

* `EvDev.Iter.pump`, `operator==`, `operator*`, `operator++`, `EvDev.begin`, `EvDev.end`
  and the range-for of `main` over the device (a "drive cycle");
* `open_pad` with its scope guards;
* `handle` and `main` with the epoll loop.

The external collaborators (libevdev, libudev, epoll) are parameters of the model: a
libevdev session is a state machine answering `libevdev_next_event`, a udev catalog is a
list of entries each recording what the calls made on it return, and the epoll facility is
the list of results of the successive `epoll_wait` calls.  Stateful code is written in
state-passing style over `World`, which also keeps ghost records of every pull made on the
session, every call of `handle`, and every line written to standard output.
-/

namespace UdevJoy

/-! ## Constants of the system headers -/

/-- Value of `EAGAIN` in `<errno.h>` on Linux. -/
def EAGAIN : Int := 11
/-- Value of `LIBEVDEV_READ_FLAG_SYNC` in `<libevdev/libevdev.h>`. -/
def LIBEVDEV_READ_FLAG_SYNC : Int := 1
/-- Value of `LIBEVDEV_READ_FLAG_NORMAL` in `<libevdev/libevdev.h>`. -/
def LIBEVDEV_READ_FLAG_NORMAL : Int := 2
/-- Value of `LIBEVDEV_READ_STATUS_SUCCESS` in `<libevdev/libevdev.h>`. -/
def LIBEVDEV_READ_STATUS_SUCCESS : Int := 0
/-- Value of `LIBEVDEV_READ_STATUS_SYNC` in `<libevdev/libevdev.h>`. -/
def LIBEVDEV_READ_STATUS_SYNC : Int := 1
/-- Value of `EV_KEY` in `<linux/input-event-codes.h>`. -/
def EV_KEY : Nat := 1
/-- Value of `EPOLLIN` in `<sys/epoll.h>`. -/
def EPOLLIN : Nat := 1
/-- Value of `EPOLLERR` in `<sys/epoll.h>`. -/
def EPOLLERR : Nat := 8
/-- Value of `EPOLLHUP` in `<sys/epoll.h>`. -/
def EPOLLHUP : Nat := 16

/-! ## Data model -/

/-- The kernel's `struct input_event`: a timestamp and the `type`, `code`, `value` triple. -/
structure input_event where
  time : Nat
  type : Nat
  code : Nat
  value : Int
deriving DecidableEq, Repr, Inhabited

/-- The libevdev collaborator, as far as `main.cpp` calls it, over session states `σ`.
`next_event s flags ev` is `libevdev_next_event (p, flags, &ev)` on a session in state `s`
with the caller's buffer holding `ev`: it gives the returned status, the buffer afterwards
and the next session state.  The name lookups are taken to return a string, never a null
pointer. -/
structure Libevdev (σ : Type) where
  next_event : σ → Int → input_event → Int × input_event × σ
  get_name : σ → String
  get_fd : σ → Int
  event_code_get_name : Nat → Nat → String

/-- The process state the code acts on: the libevdev session, plus ghost records of the
`(flags, status)` of every `libevdev_next_event` call, of the argument of every `handle`
call, of the text written to `std::cout`, of the descriptors added to the epoll instance
and of the number of `epoll_wait` calls made. -/
structure World (σ : Type) where
  dev : σ
  pulls : List (Int × Int)
  handled : List input_event
  out : List String
  registered : List Int
  waits : Nat
deriving DecidableEq, Repr

/-- Result of running a piece of the program: normal completion with a value, a
`std::system_error` in flight carrying `code`, or the model's step budget running out
before the code returned. -/
inductive Res (σ α : Type) where
  | ok (a : α) (w : World σ)
  | thrown (code : Int) (w : World σ)
  | timeout
deriving DecidableEq, Repr

/-- The fields of `EvDev::Iter`; `p` records whether the session pointer is non-null. -/
structure Iter where
  p : Bool
  resync : Bool
  ev : input_event
deriving DecidableEq, Repr

/-- The class `EvDev`: `p` is the session pointer, `none` for `nullptr`; a session is named
by the descriptor it was bound to. -/
structure EvDev where
  p : Option Int
deriving DecidableEq, Repr

/-- The conversion `explicit operator bool () const`. -/
def EvDev.toBool (d : EvDev) : Bool := d.p.isSome

/-! ## The iterator -/

/-- The world after a pull made with `flags` that returned `res` and left the session in
state `s`. -/
def World.pulled {σ : Type} (w : World σ) (flags res : Int) (s : σ) : World σ :=
  { w with dev := s, pulls := w.pulls ++ [(flags, res)] }

/-- The first line of `pump`: `resync? LIBEVDEV_READ_FLAG_SYNC : LIBEVDEV_READ_FLAG_NORMAL`. -/
def readFlags (resync : Bool) : Int :=
  if resync then LIBEVDEV_READ_FLAG_SYNC else LIBEVDEV_READ_FLAG_NORMAL

/-- The method `EvDev::Iter::pump`.  The first argument bounds the depth of the
recursion. -/
def pump {σ : Type} (L : Libevdev σ) : Nat → World σ → Iter → Res σ Iter
  | 0, _, _ => .timeout
  | fuel + 1, w, it =>
    let flags := readFlags it.resync
    let r := L.next_event w.dev flags it.ev
    let w1 : World σ := w.pulled flags r.1 r.2.2
    let it1 : Iter := { it with ev := r.2.1 }
    if r.1 = -EAGAIN then
      if it1.resync then pump L fuel w1 { it1 with resync := false }
      else .ok { it1 with p := false } w1
    else if r.1 = LIBEVDEV_READ_STATUS_SYNC then pump L fuel w1 { it1 with resync := true }
    else if r.1 < 0 then .thrown r.1 w1
    else .ok it1 w1

/-- The comparison `Iter::operator ==`. -/
def Iter.eq (a b : Iter) : Bool := !a.p && !b.p

/-- The comparison `Iter::operator !=`. -/
def Iter.ne (a b : Iter) : Bool := a.p || b.p

/-- The dereference `Iter::operator *`. -/
def Iter.deref (it : Iter) : input_event := it.ev

/-- The increment `Iter::operator ++`. -/
def Iter.incr {σ : Type} (L : Libevdev σ) (fuel : Nat) (w : World σ) (it : Iter) :
    Res σ Iter :=
  pump L fuel w it

/-- The member `EvDev::end`: a default-constructed iterator.  Its event buffer is
indeterminate in the source; `garbage` stands for its content. -/
def EvDev.end (garbage : input_event) : Iter := { p := false, resync := false, ev := garbage }

/-- The member `EvDev::begin`: `Iter (p)` stores the pointer and pumps once. -/
def EvDev.begin {σ : Type} (L : Libevdev σ) (fuel : Nat) (w : World σ) (pad : EvDev)
    (garbage : input_event) : Res σ Iter :=
  pump L fuel w { p := pad.p.isSome, resync := false, ev := garbage }

/-- The consumer `handle`: for a `EV_KEY` event it writes the code's name and the value. -/
def handle {σ : Type} (L : Libevdev σ) (w : World σ) (ev : input_event) : World σ :=
  let w1 : World σ := { w with handled := w.handled ++ [ev] }
  if ev.type = EV_KEY then
    { w1 with out := w1.out ++ [L.event_code_get_name ev.type ev.code ++ ": "
                                  ++ toString ev.value ++ "\n"] }
  else w1

/-- The body of `for (input_event ev : pad) handle (ev);` once `begin` has returned: while
the iterator differs from `end`, hand `*it` to `handle` and increment.  `n` bounds the
number of iterations, `fuel` each call of `pump`. -/
def rangeLoop {σ : Type} (L : Libevdev σ) (fuel : Nat) (garbage : input_event) :
    Nat → World σ → Iter → Res σ Unit
  | 0, _, _ => .timeout
  | n + 1, w, it =>
    if it.ne (EvDev.end garbage) then
      match it.incr L fuel (handle L w it.deref) with
      | .ok it1 w1 => rangeLoop L fuel garbage n w1 it1
      | .thrown c w1 => .thrown c w1
      | .timeout => .timeout
    else .ok () w

/-- One drive cycle: the whole statement `for (input_event ev : pad) handle (ev);`. -/
def drive {σ : Type} (L : Libevdev σ) (fuel : Nat) (w : World σ) (pad : EvDev)
    (garbage : input_event) : Res σ Unit :=
  match EvDev.begin L fuel w pad garbage with
  | .ok it w1 => rangeLoop L fuel garbage fuel w1 it
  | .thrown c w1 => .thrown c w1
  | .timeout => .timeout

/-! ## A scripted event source -/

/-- What one pull of a scripted source does: the status it returns and, when it writes
one, the event it stores in the caller's buffer. -/
abbrev Pull := Int × Option input_event

/-- A simulated event source: its state is the list of the pulls still to come, answered
one per call whatever the flags; once the list is used up every pull reports would-block
and leaves the buffer alone. -/
def scripted : Libevdev (List Pull) where
  next_event s _ ev :=
    match s with
    | [] => (-EAGAIN, ev, [])
    | r :: rest => (r.1, r.2.getD ev, rest)
  get_name _ := "pad"
  get_fd _ := 3
  event_code_get_name _ c := toString c

/-- A successful pull delivering `e`. -/
def Pull.event (e : input_event) : Pull := (LIBEVDEV_READ_STATUS_SUCCESS, some e)
/-- A pull reporting would-block. -/
def Pull.wouldBlock : Pull := (-EAGAIN, none)
/-- A pull reporting an overrun, storing `e` (the `SYN_DROPPED` marker, or a catch-up
event when the session is already resynchronising). -/
def Pull.sync (e : input_event) : Pull := (LIBEVDEV_READ_STATUS_SYNC, some e)
/-- A pull that fails with status `c`. -/
def Pull.fail (c : Int) : Pull := (c, none)

/-- A world whose session is in state `s` and whose ghost records are empty. -/
def World.init {σ : Type} (s : σ) : World σ :=
  { dev := s, pulls := [], handled := [], out := [], registered := [], waits := 0 }

/-! ## Device discovery -/

/-- One entry of the udev enumeration, with what the calls `open_pad` makes on it return:
`dev` tells whether `udev_device_new_from_syspath` gives a device, `node` is the result of
`udev_device_get_devnode`, `fd` the result of `open (node, O_RDWR | O_NONBLOCK)` and `err`
the result of `libevdev_new_from_fd (fd, &p)`. -/
structure Candidate where
  name : String
  dev : Bool
  node : Option String
  fd : Int
  err : Int
deriving DecidableEq, Repr

/-- The udev collaborator: whether `udev_new` and `udev_enumerate_new` give an object, and
the entries of the scanned enumeration in list order. -/
structure Udev where
  udev : Bool
  devenum : Bool
  entries : List Candidate
deriving DecidableEq, Repr

/-- The releases performed by the scope guards of `open_pad`. -/
inductive Act where
  | udev_unref
  | udev_enumerate_unref
  | udev_device_unref (name : String)
  | close (fd : Int)
deriving DecidableEq, Repr

/-- The constructor `explicit EvDev (int fd)`: it throws the error of
`libevdev_new_from_fd` when that is negative and otherwise holds the new session. -/
def EvDev.ofFd (fd err : Int) : Except Int EvDev :=
  if err < 0 then .error err else .ok { p := some fd }

/-- The `for` loop of `open_pad` over the list entries.  The second component lists the
guard actions in the order they run; when the constructor of `EvDev` throws, they are the
ones the guards' destructors run as the stack is unwound out of the loop body. -/
def scan : List Candidate → Except Int EvDev × List Act
  | [] => (.ok { p := none }, [])
  | c :: rest =>
    if !c.dev then scan rest
    else
      match c.node with
      | none => ((scan rest).1, Act.udev_device_unref c.name :: (scan rest).2)
      | some _ =>
        if c.fd = -1 then ((scan rest).1, Act.udev_device_unref c.name :: (scan rest).2)
        else
          match EvDev.ofFd c.fd c.err with
          | .error e => (.error e, [Act.close c.fd, Act.udev_device_unref c.name])
          | .ok evdev => (.ok evdev, [Act.udev_device_unref c.name])

/-- The function `open_pad`. -/
def open_pad (u : Udev) : Except Int EvDev × List Act :=
  if !u.udev then (.ok { p := none }, [])
  else if !u.devenum then (.ok { p := none }, [Act.udev_unref])
  else ((scan u.entries).1, (scan u.entries).2 ++ [Act.udev_enumerate_unref, Act.udev_unref])

/-! ## The readiness loop -/

/-- How the process ends: `main` returns `c`; a `std::system_error` carrying `err` leaves
`main` uncaught; the process stays blocked in `epoll_wait`; or the model's step budget ran
out inside a drive cycle. -/
inductive Exit where
  | code (c : Int)
  | uncaught (err : Int)
  | blocked
  | timeout
deriving DecidableEq, Repr

/-- The world after one more `epoll_wait` call. -/
def World.waited {σ : Type} (w : World σ) : World σ := { w with waits := w.waits + 1 }

/-- Writing `s` to `std::cout`. -/
def World.print {σ : Type} (w : World σ) (s : String) : World σ :=
  { w with out := w.out ++ [s] }

/-- The loop `for (;;)` of `main`.  The list holds, for each successive call of
`epoll_wait`, the value it returns and the `events` field it stores; when the list is used
up the call never returns.  After `break` control reaches the closing brace of `main`,
which is a return of 0. -/
def main_loop {σ : Type} (L : Libevdev σ) (fuel : Nat) (garbage : input_event) (pad : EvDev) :
    List (Int × Nat) → World σ → Exit × World σ
  | [], w => (.blocked, w.waited)
  | (n, events) :: rest, w =>
    let w1 : World σ := w.waited
    if n < 1 then (.code 0, w1)
    else if events &&& EPOLLHUP ≠ 0 then (.code 0, w1.print "Disconnected\n")
    else if events &&& EPOLLERR ≠ 0 then (.code 1, w1.print "Device error\n")
    else if events &&& EPOLLIN ≠ 0 then
      match drive L fuel w1 pad garbage with
      | .ok _ w2 => main_loop L fuel garbage pad rest w2
      | .thrown c w2 => (.uncaught c, w2)
      | .timeout => (.timeout, w1)
    else main_loop L fuel garbage pad rest w1

/-- The function `main`. -/
def main {σ : Type} (L : Libevdev σ) (u : Udev) (fuel : Nat) (garbage : input_event)
    (polls : List (Int × Nat)) (w : World σ) : Exit × World σ :=
  match (open_pad u).1 with
  | .error err => (.uncaught err, w)
  | .ok pad =>
    if !pad.toBool then (.code 1, w.print "No game controllers detected\n")
    else
      let w1 := w.print ("Using " ++ L.get_name w.dev ++ "\n")
      let w2 : World σ := { w1 with registered := w1.registered ++ [L.get_fd w1.dev] }
      main_loop L fuel garbage pad polls w2

/-- The world after the pulls `ps` have been made in turn, the session ending in `s`. -/
def World.pulledAll {σ : Type} (w : World σ) (ps : List (Int × Int)) (s : σ) : World σ :=
  { w with dev := s, pulls := w.pulls ++ ps }

/-- The world after `handle` has been called on each event of `es`, in list order. -/
def deliver {σ : Type} (L : Libevdev σ) (w : World σ) (es : List input_event) : World σ :=
  es.foldl (handle L) w

/-- The pull records of `k` successful normal-mode pulls. -/
def normalPulls (k : Nat) : List (Int × Int) :=
  List.replicate k (LIBEVDEV_READ_FLAG_NORMAL, LIBEVDEV_READ_STATUS_SUCCESS)

/-! ## Predicates and sample inputs used in the statements -/

/-- An entry passes the three checks of the scan loop before the session is bound: the
device object exists, it has a device node, and the node opens. -/
def Candidate.opens (c : Candidate) : Bool := c.dev && c.node.isSome && c.fd != -1

/-- The guard actions run for the entries the scan skips: each one whose device object
exists has that object released. -/
def skippedActs (cs : List Candidate) : List Act :=
  (cs.filter (fun c => c.dev)).map (fun c => Act.udev_device_unref c.name)

/-- The BTN_A press of the spec's scenario B (`BTN_A` is code 304). -/
def btnA_down : input_event := { time := 0, type := EV_KEY, code := 304, value := 1 }
/-- The BTN_A release of the spec's scenario B. -/
def btnA_up : input_event := { time := 1, type := EV_KEY, code := 304, value := 0 }

/-- A `SYN_DROPPED` marker (type `EV_SYN`, code 3), as stored by a pull reporting an overrun. -/
def synDropped : input_event := { time := 2, type := 0, code := 3, value := 0 }

section Steps
variable {σ : Type} (L : Libevdev σ)

theorem pump_zero (w : World σ) (it : Iter) : pump L 0 w it = .timeout := rfl

theorem pump_wouldBlock_normal (f : Nat) (w : World σ) (it : Iter) (ev : input_event) (s : σ)
    (hr : it.resync = false)
    (h : L.next_event w.dev LIBEVDEV_READ_FLAG_NORMAL it.ev = (-EAGAIN, ev, s)) :
    pump L (f + 1) w it
      = .ok { p := false, resync := false, ev := ev }
          (w.pulled LIBEVDEV_READ_FLAG_NORMAL (-EAGAIN) s) := by
  obtain ⟨p, r, e⟩ := it
  simp only at hr h
  subst hr
  simp [pump, readFlags, h, World.pulled]

theorem pump_wouldBlock_resync (f : Nat) (w : World σ) (it : Iter) (ev : input_event) (s : σ)
    (hr : it.resync = true)
    (h : L.next_event w.dev LIBEVDEV_READ_FLAG_SYNC it.ev = (-EAGAIN, ev, s)) :
    pump L (f + 1) w it
      = pump L f (w.pulled LIBEVDEV_READ_FLAG_SYNC (-EAGAIN) s)
          { p := it.p, resync := false, ev := ev } := by
  obtain ⟨p, r, e⟩ := it
  simp only at hr h
  subst hr
  simp [pump, readFlags, h, World.pulled]

theorem pump_sync (f : Nat) (w : World σ) (it : Iter) (ev : input_event) (s : σ)
    (h : L.next_event w.dev (readFlags it.resync) it.ev = (LIBEVDEV_READ_STATUS_SYNC, ev, s)) :
    pump L (f + 1) w it
      = pump L f (w.pulled (readFlags it.resync) LIBEVDEV_READ_STATUS_SYNC s)
          { p := it.p, resync := true, ev := ev } := by
  obtain ⟨p, r, e⟩ := it
  simp only at h
  simp [pump, h, World.pulled, LIBEVDEV_READ_STATUS_SYNC, EAGAIN]

theorem pump_fault (f : Nat) (w : World σ) (it : Iter) (res : Int) (ev : input_event) (s : σ)
    (hneg : res < 0) (hne : res ≠ -EAGAIN)
    (h : L.next_event w.dev (readFlags it.resync) it.ev = (res, ev, s)) :
    pump L (f + 1) w it = .thrown res (w.pulled (readFlags it.resync) res s) := by
  obtain ⟨p, r, e⟩ := it
  simp only at h
  have h1 : res ≠ LIBEVDEV_READ_STATUS_SYNC := by
    simp only [LIBEVDEV_READ_STATUS_SYNC]; omega
  simp [pump, h, World.pulled, hne, h1, hneg]

theorem pump_event (f : Nat) (w : World σ) (it : Iter) (res : Int) (ev : input_event) (s : σ)
    (hpos : 0 ≤ res) (hne : res ≠ LIBEVDEV_READ_STATUS_SYNC)
    (h : L.next_event w.dev (readFlags it.resync) it.ev = (res, ev, s)) :
    pump L (f + 1) w it
      = .ok { p := it.p, resync := it.resync, ev := ev }
          (w.pulled (readFlags it.resync) res s) := by
  obtain ⟨p, r, e⟩ := it
  simp only at h
  have h1 : res ≠ -EAGAIN := by simp only [EAGAIN]; omega
  have h2 : ¬ res < 0 := by omega
  simp [pump, h, World.pulled, hne, h1, h2]

end Steps

/-! ## Facts about `handle` -/

section Handle
variable {σ : Type} (L : Libevdev σ)

@[simp]
theorem handle_dev (w : World σ) (e : input_event) : (handle L w e).dev = w.dev := by
  unfold handle; split <;> rfl

@[simp]
theorem handle_pulls (w : World σ) (e : input_event) :
    (handle L w e).pulls = w.pulls := by
  unfold handle; split <;> rfl

@[simp]
theorem handle_handled (w : World σ) (e : input_event) :
    (handle L w e).handled = w.handled ++ [e] := by
  unfold handle; split <;> rfl

@[simp]
theorem handle_registered (w : World σ) (e : input_event) :
    (handle L w e).registered = w.registered := by
  unfold handle; split <;> rfl

@[simp]
theorem handle_waits (w : World σ) (e : input_event) :
    (handle L w e).waits = w.waits := by
  unfold handle; split <;> rfl

theorem handle_pulled (w : World σ) (e : input_event) (fl res : Int) (s : σ) :
    handle L (w.pulled fl res s) e = (handle L w e).pulled fl res s := by
  unfold handle World.pulled; split <;> rfl

@[simp]
theorem deliver_nil (w : World σ) : deliver L w [] = w := rfl

@[simp]
theorem deliver_cons (w : World σ) (e : input_event) (es : List input_event) :
    deliver L w (e :: es) = deliver L (handle L w e) es := rfl

theorem deliver_append (w : World σ) (as bs : List input_event) :
    deliver L w (as ++ bs) = deliver L (deliver L w as) bs := by
  simp [deliver, List.foldl_append]

@[simp]
theorem deliver_dev (w : World σ) (es : List input_event) :
    (deliver L w es).dev = w.dev := by
  induction es generalizing w with
  | nil => rfl
  | cons e es ih => simp [ih]

@[simp]
theorem deliver_pulls (w : World σ) (es : List input_event) :
    (deliver L w es).pulls = w.pulls := by
  induction es generalizing w with
  | nil => rfl
  | cons e es ih => simp [ih]

@[simp]
theorem deliver_handled (w : World σ) (es : List input_event) :
    (deliver L w es).handled = w.handled ++ es := by
  induction es generalizing w with
  | nil => simp
  | cons e es ih => simp [ih]

@[simp]
theorem deliver_registered (w : World σ) (es : List input_event) :
    (deliver L w es).registered = w.registered := by
  induction es generalizing w with
  | nil => rfl
  | cons e es ih => simp [ih]

@[simp]
theorem deliver_waits (w : World σ) (es : List input_event) :
    (deliver L w es).waits = w.waits := by
  induction es generalizing w with
  | nil => rfl
  | cons e es ih => simp [ih]

theorem handle_pulledAll (w : World σ) (e : input_event) (ps : List (Int × Int)) (s : σ) :
    handle L (w.pulledAll ps s) e = (handle L w e).pulledAll ps s := by
  unfold handle World.pulledAll; split <;> rfl

theorem deliver_pulled (w : World σ) (es : List input_event) (fl res : Int) (s : σ) :
    deliver L (w.pulled fl res s) es = (deliver L w es).pulled fl res s := by
  induction es generalizing w with
  | nil => rfl
  | cons e es ih => simp [handle_pulled, ih]

end Handle

/-! ## Drive cycles over a scripted source -/

theorem pulled_pulledAll {σ : Type} (w : World σ) (fl res : Int) (s s1 : σ)
    (ps : List (Int × Int)) :
    (w.pulled fl res s).pulledAll ps s1 = w.pulledAll ((fl, res) :: ps) s1 := by
  simp [World.pulled, World.pulledAll]

theorem pulled_eq_pulledAll {σ : Type} (w : World σ) (fl res : Int) (s : σ) :
    w.pulled fl res s = w.pulledAll [(fl, res)] s := rfl

theorem pulledAll_pulledAll {σ : Type} (w : World σ) (s s1 : σ) (ps qs : List (Int × Int)) :
    (w.pulledAll ps s).pulledAll qs s1 = w.pulledAll (ps ++ qs) s1 := by
  simp [World.pulled, World.pulledAll]

theorem deliver_pulledAll {σ : Type} (L : Libevdev σ) (w : World σ) (es : List input_event)
    (ps : List (Int × Int)) (s : σ) :
    deliver L (w.pulledAll ps s) es = (deliver L w es).pulledAll ps s := by
  induction es generalizing w with
  | nil => rfl
  | cons e es ih =>
    have h : handle L (w.pulledAll ps s) e = (handle L w e).pulledAll ps s := by
      unfold handle World.pulledAll; split <;> rfl
    simp [h, ih]

theorem rangeLoop_succ {σ : Type} (L : Libevdev σ) (f n : Nat) (g e : input_event)
    (r : Bool) (w : World σ) :
    rangeLoop L f g (n + 1) w { p := true, resync := r, ev := e }
      = match pump L f (handle L w e) { p := true, resync := r, ev := e } with
        | .ok it1 w1 => rangeLoop L f g n w1 it1
        | .thrown c w1 => .thrown c w1
        | .timeout => .timeout := by
  simp [rangeLoop, Iter.ne, Iter.incr, Iter.deref]

theorem rangeLoop_done {σ : Type} (L : Libevdev σ) (f n : Nat) (g e : input_event)
    (r : Bool) (w : World σ) :
    rangeLoop L f g (n + 1) w { p := false, resync := r, ev := e } = .ok () w := by
  simp [rangeLoop, Iter.ne, EvDev.end]

theorem rangeLoop_events (f n : Nat) (g : input_event) (es : List input_event)
    (rest : List Pull) (e : input_event) (w : World (List Pull))
    (hw : w.dev = es.map Pull.event ++ Pull.wouldBlock :: rest) :
    rangeLoop scripted (f + 1) g (es.length + 2 + n) w { p := true, resync := false, ev := e }
      = .ok () ((deliver scripted w (e :: es)).pulledAll
          (normalPulls es.length ++ [(LIBEVDEV_READ_FLAG_NORMAL, -EAGAIN)]) rest) := by
  induction es generalizing w e with
  | nil =>
    simp only [List.map_nil, List.nil_append] at hw
    have hstep := pump_wouldBlock_normal scripted f (handle scripted w e)
      { p := true, resync := false, ev := e } e rest rfl
      (by simp [scripted, hw, Pull.wouldBlock])
    have hlen : ([] : List input_event).length + 2 + n = (n + 1) + 1 := by
      simp only [List.length_nil]; omega
    rw [hlen, rangeLoop_succ, hstep]
    simp only [rangeLoop_done, deliver_cons, deliver_nil, normalPulls, List.replicate_zero,
      List.length_nil, List.nil_append, pulled_eq_pulledAll]
  | cons e1 es ih =>
    simp only [List.map_cons, List.cons_append] at hw
    have hstep := pump_event scripted f (handle scripted w e)
      { p := true, resync := false, ev := e } LIBEVDEV_READ_STATUS_SUCCESS e1
      (es.map Pull.event ++ Pull.wouldBlock :: rest) (by decide) (by decide)
      (by simp [scripted, hw, Pull.event])
    have hlen : (e1 :: es).length + 2 + n = (es.length + 2 + n) + 1 := by
      simp only [List.length_cons]; omega
    rw [hlen, rangeLoop_succ, hstep]
    simp only []
    rw [ih e1 _ (by simp [World.pulled])]
    simp only [deliver_cons, pulled_eq_pulledAll, deliver_pulledAll, handle_pulledAll,
      pulledAll_pulledAll, normalPulls, List.length_cons, List.replicate_succ, readFlags,
      List.cons_append, List.nil_append, List.singleton_append]
    rfl

theorem begin_eq {σ : Type} (L : Libevdev σ) (f : Nat) (w : World σ) (pad : EvDev)
    (g : input_event) (hpad : pad.toBool = true) :
    EvDev.begin L f w pad g = pump L f w { p := true, resync := false, ev := g } := by
  simp only [EvDev.toBool] at hpad
  simp [EvDev.begin, hpad]

/-- Claim C1: a drive cycle over a source that answers `k` successful pulls carrying
`e1..ek` and then would-block returns, having called the consumer exactly on `e1..ek`, in
that order and unchanged; with `k = 0` the consumer is not called at all.  The cycle makes
`k` successful normal-mode pulls and the would-block one, and leaves the rest of the
source untouched. -/
theorem drive_delivers_each_event_once (es : List input_event) (rest : List Pull)
    (w : World (List Pull)) (pad : EvDev) (g : input_event) (extra : Nat)
    (hpad : pad.toBool = true)
    (hw : w.dev = es.map Pull.event ++ Pull.wouldBlock :: rest) :
    drive scripted (es.length + 1 + extra) w pad g
        = .ok () ((deliver scripted w es).pulledAll
            (normalPulls es.length ++ [(LIBEVDEV_READ_FLAG_NORMAL, -EAGAIN)]) rest)
      ∧ ((deliver scripted w es).pulledAll
            (normalPulls es.length ++ [(LIBEVDEV_READ_FLAG_NORMAL, -EAGAIN)]) rest).handled
          = w.handled ++ es := by
  refine ⟨?_, by simp [World.pulledAll]⟩
  cases es with
  | nil =>
    simp only [List.map_nil, List.nil_append] at hw
    have hlen : ([] : List input_event).length + 1 + extra = extra + 1 := by
      simp only [List.length_nil]; omega
    have hstep := pump_wouldBlock_normal scripted extra w
      { p := true, resync := false, ev := g } g rest rfl
      (by simp [scripted, hw, Pull.wouldBlock])
    rw [hlen, drive, begin_eq _ _ _ _ _ hpad, hstep]
    simp only [rangeLoop_done, deliver_nil, normalPulls, List.replicate_zero,
      List.length_nil, List.nil_append, pulled_eq_pulledAll]
  | cons e es =>
    simp only [List.map_cons, List.cons_append] at hw
    have hlen : (e :: es).length + 1 + extra = (es.length + 1 + extra) + 1 := by
      simp only [List.length_cons]; omega
    have hstep := pump_event scripted (es.length + 1 + extra) w
      { p := true, resync := false, ev := g } LIBEVDEV_READ_STATUS_SUCCESS e
      (es.map Pull.event ++ Pull.wouldBlock :: rest) (by decide) (by decide)
      (by simp [scripted, hw, Pull.event])
    rw [hlen, drive, begin_eq _ _ _ _ _ hpad, hstep]
    simp only []
    have hn : es.length + 1 + extra + 1 = es.length + 2 + extra := by omega
    have hr := rangeLoop_events (es.length + 1 + extra) extra g es rest e
      (w.pulled (readFlags false) LIBEVDEV_READ_STATUS_SUCCESS
        (es.map Pull.event ++ Pull.wouldBlock :: rest)) (by simp [World.pulled])
    rw [hn] at hr
    rw [hn, hr]
    simp only [deliver_cons, pulled_eq_pulledAll, deliver_pulledAll, handle_pulledAll,
      pulledAll_pulledAll, normalPulls, List.length_cons, List.replicate_succ, readFlags,
      List.cons_append, List.nil_append, List.singleton_append]
    rfl

theorem drive_delivers_each_event_once_witness :
    ((({ p := some 3 } : EvDev).toBool = true)
      ∧ (World.init [Pull.event btnA_down, Pull.event btnA_up, Pull.wouldBlock]).dev
          = [btnA_down, btnA_up].map Pull.event ++ Pull.wouldBlock :: [])
    ∧ (drive scripted 3
          (World.init [Pull.event btnA_down, Pull.event btnA_up, Pull.wouldBlock])
          { p := some 3 } default
        = .ok () ((deliver scripted
              (World.init [Pull.event btnA_down, Pull.event btnA_up, Pull.wouldBlock])
              [btnA_down, btnA_up]).pulledAll
            (normalPulls 2 ++ [(LIBEVDEV_READ_FLAG_NORMAL, -EAGAIN)]) [])
      ∧ ((deliver scripted
              (World.init [Pull.event btnA_down, Pull.event btnA_up, Pull.wouldBlock])
              [btnA_down, btnA_up]).pulledAll
            (normalPulls 2 ++ [(LIBEVDEV_READ_FLAG_NORMAL, -EAGAIN)]) []).handled
          = [] ++ [btnA_down, btnA_up]) :=
  ⟨⟨rfl, rfl⟩,
    drive_delivers_each_event_once [btnA_down, btnA_up] []
      (World.init [Pull.event btnA_down, Pull.event btnA_up, Pull.wouldBlock])
      { p := some 3 } default 0 rfl rfl⟩

/-! ### Overrun and catch-up -/

theorem dropLast_append_getLastD (e : input_event) (es : List input_event) :
    (e :: es).dropLast ++ [es.getLastD e] = e :: es := by
  induction es generalizing e with
  | nil => rfl
  | cons e1 es ih =>
    have := ih e1
    simp only [List.dropLast_cons₂, List.getLastD_cons, List.cons_append]
    rw [this]

theorem pulledAll_nil {σ : Type} (w : World σ) (s : σ) (h : w.dev = s) :
    w.pulledAll [] s = w := by
  subst h
  simp [World.pulledAll]

theorem rangeLoop_through (f n : Nat) (g : input_event) (r : Bool) (es : List input_event)
    (tail : List Pull) (e : input_event) (w : World (List Pull))
    (hw : w.dev = es.map Pull.event ++ tail) :
    rangeLoop scripted (f + 1) g (es.length + n) w { p := true, resync := r, ev := e }
      = rangeLoop scripted (f + 1) g n
          ((deliver scripted w (e :: es).dropLast).pulledAll
            (List.replicate es.length (readFlags r, LIBEVDEV_READ_STATUS_SUCCESS)) tail)
          { p := true, resync := r, ev := es.getLastD e } := by
  induction es generalizing w e with
  | nil =>
    simp only [List.map_nil, List.nil_append] at hw
    simp only [List.length_nil, Nat.zero_add, List.dropLast_single, deliver_nil,
      List.replicate_zero, List.getLastD_nil, pulledAll_nil w tail hw]
  | cons e1 es ih =>
    simp only [List.map_cons, List.cons_append] at hw
    have hstep := pump_event scripted f (handle scripted w e)
      { p := true, resync := r, ev := e } LIBEVDEV_READ_STATUS_SUCCESS e1
      (es.map Pull.event ++ tail) (by decide) (by decide)
      (by simp [scripted, hw, Pull.event])
    have hlen : (e1 :: es).length + n = (es.length + n) + 1 := by
      simp only [List.length_cons]; omega
    rw [hlen, rangeLoop_succ, hstep]
    simp only []
    rw [ih e1 _ (by simp [World.pulled])]
    simp only [List.dropLast_cons₂, List.getLastD_cons, deliver_cons, pulled_eq_pulledAll,
      deliver_pulledAll, pulledAll_pulledAll, List.length_cons, List.replicate_succ,
      List.singleton_append]

theorem pump_catchup_end (F : Nat) (hF : 2 ≤ F) (w : World (List Pull)) (e : input_event)
    (rest : List Pull) (hw : w.dev = Pull.wouldBlock :: Pull.wouldBlock :: rest) :
    pump scripted F w { p := true, resync := true, ev := e }
      = .ok { p := false, resync := false, ev := e }
          (w.pulledAll [(LIBEVDEV_READ_FLAG_SYNC, -EAGAIN), (LIBEVDEV_READ_FLAG_NORMAL, -EAGAIN)]
            rest) := by
  obtain ⟨f, rfl⟩ : ∃ f, F = f + 1 + 1 := ⟨F - 2, by omega⟩
  rw [pump_wouldBlock_resync scripted (f + 1) w _ e (Pull.wouldBlock :: rest) rfl
    (by simp [scripted, hw, Pull.wouldBlock])]
  rw [pump_wouldBlock_normal scripted f _ _ e rest rfl
    (by simp [scripted, World.pulled, Pull.wouldBlock])]
  simp only [pulled_eq_pulledAll, pulledAll_pulledAll, List.singleton_append]

theorem pump_overrun_event (F : Nat) (hF : 2 ≤ F) (w : World (List Pull)) (r : Bool)
    (e m c : input_event) (tail : List Pull)
    (hw : w.dev = Pull.sync m :: Pull.event c :: tail) :
    pump scripted F w { p := true, resync := r, ev := e }
      = .ok { p := true, resync := true, ev := c }
          (w.pulledAll [(readFlags r, LIBEVDEV_READ_STATUS_SYNC),
            (LIBEVDEV_READ_FLAG_SYNC, LIBEVDEV_READ_STATUS_SUCCESS)] tail) := by
  obtain ⟨f, rfl⟩ : ∃ f, F = f + 1 + 1 := ⟨F - 2, by omega⟩
  rw [pump_sync scripted (f + 1) w _ m (Pull.event c :: tail)
    (by simp [scripted, hw, Pull.sync])]
  rw [pump_event scripted f _ _ LIBEVDEV_READ_STATUS_SUCCESS c tail (by decide) (by decide)
    (by simp [scripted, World.pulled, Pull.event])]
  simp only [pulled_eq_pulledAll, pulledAll_pulledAll, List.singleton_append, readFlags,
    if_true]

theorem pump_overrun_end (F : Nat) (hF : 3 ≤ F) (w : World (List Pull)) (r : Bool)
    (e m : input_event) (rest : List Pull)
    (hw : w.dev = Pull.sync m :: Pull.wouldBlock :: Pull.wouldBlock :: rest) :
    pump scripted F w { p := true, resync := r, ev := e }
      = .ok { p := false, resync := false, ev := m }
          (w.pulledAll [(readFlags r, LIBEVDEV_READ_STATUS_SYNC),
            (LIBEVDEV_READ_FLAG_SYNC, -EAGAIN), (LIBEVDEV_READ_FLAG_NORMAL, -EAGAIN)] rest) := by
  obtain ⟨f, rfl⟩ : ∃ f, F = f + 1 := ⟨F - 1, by omega⟩
  rw [pump_sync scripted f w _ m (Pull.wouldBlock :: Pull.wouldBlock :: rest)
    (by simp [scripted, hw, Pull.sync])]
  rw [pump_catchup_end f (by omega) _ m rest (by simp [World.pulled])]
  simp only [pulled_eq_pulledAll, pulledAll_pulledAll, List.singleton_append]

theorem pump_thrown_last {σ : Type} (L : Libevdev σ) (f : Nat) (w w1 : World σ) (it : Iter)
    (c : Int) (h : pump L f w it = .thrown c w1) :
    c < 0 ∧ c ≠ -EAGAIN ∧ c ≠ LIBEVDEV_READ_STATUS_SYNC
      ∧ ∃ fl, w1.pulls.getLast? = some (fl, c) := by
  induction f generalizing w it with
  | zero => simp [pump] at h
  | succ f ih =>
    rw [pump] at h
    simp only [] at h
    split at h
    · split at h
      · exact ih _ _ h
      · simp at h
    · split at h
      · exact ih _ _ h
      · split at h
        · rename_i h1 h2 h3
          simp only [Res.thrown.injEq] at h
          obtain ⟨hc, hw⟩ := h
          subst hc
          subst hw
          exact ⟨h3, h1, h2, readFlags it.resync, by simp [World.pulled]⟩
        · simp at h

theorem pump_fault_scripted (F : Nat) (hF : 1 ≤ F) (w : World (List Pull)) (it : Iter)
    (res : Int) (rest : List Pull) (hneg : res < 0) (hne : res ≠ -EAGAIN)
    (hw : w.dev = Pull.fail res :: rest) :
    pump scripted F w it = .thrown res (w.pulledAll [(readFlags it.resync, res)] rest) := by
  obtain ⟨f, rfl⟩ : ∃ f, F = f + 1 := ⟨F - 1, by omega⟩
  rw [pump_fault scripted f w it res it.ev rest hneg hne (by simp [scripted, hw, Pull.fail])]
  rfl

theorem rangeLoop_fault (F N : Nat) (g : input_event) (r : Bool) (es : List input_event)
    (rest : List Pull) (e : input_event) (res : Int) (w : World (List Pull))
    (hF : 1 ≤ F) (hN : es.length + 1 ≤ N) (hneg : res < 0) (hne : res ≠ -EAGAIN)
    (hw : w.dev = es.map Pull.event ++ Pull.fail res :: rest) :
    rangeLoop scripted F g N w { p := true, resync := r, ev := e }
      = .thrown res ((deliver scripted w (e :: es)).pulledAll
          (List.replicate es.length (readFlags r, LIBEVDEV_READ_STATUS_SUCCESS)
            ++ [(readFlags r, res)]) rest) := by
  obtain ⟨f, rfl⟩ : ∃ f, F = f + 1 := ⟨F - 1, by omega⟩
  obtain ⟨n, rfl⟩ : ∃ n, N = es.length + (n + 1) := ⟨N - (es.length + 1), by omega⟩
  rw [rangeLoop_through f (n + 1) g r es _ e w hw, rangeLoop_succ]
  rw [pump_fault_scripted (f + 1) hF _ _ res rest hneg hne (by simp [World.pulledAll])]
  simp only []
  rw [handle_pulledAll, pulledAll_pulledAll]
  have hd : handle scripted (deliver scripted w (e :: es).dropLast) (es.getLastD e)
      = deliver scripted w (e :: es) := by
    have h1 := deliver_append scripted w (e :: es).dropLast [es.getLastD e]
    rw [dropLast_append_getLastD] at h1
    rw [h1]; rfl
  rw [hd]

theorem pump_overrun_fault (F : Nat) (hF : 2 ≤ F) (w : World (List Pull)) (r : Bool)
    (e m : input_event) (res : Int) (rest : List Pull) (hneg : res < 0) (hne : res ≠ -EAGAIN)
    (hw : w.dev = Pull.sync m :: Pull.fail res :: rest) :
    pump scripted F w { p := true, resync := r, ev := e }
      = .thrown res (w.pulledAll [(readFlags r, LIBEVDEV_READ_STATUS_SYNC),
            (LIBEVDEV_READ_FLAG_SYNC, res)] rest) := by
  obtain ⟨f, rfl⟩ : ∃ f, F = f + 1 := ⟨F - 1, by omega⟩
  rw [pump_sync scripted f w _ m (Pull.fail res :: rest) (by simp [scripted, hw, Pull.sync])]
  rw [pump_fault_scripted f (by omega) _ _ res rest hneg hne (by simp [World.pulled])]
  simp only [pulled_eq_pulledAll, pulledAll_pulledAll, List.singleton_append, readFlags,
    if_true]

theorem rangeLoop_overrun_fault (F N : Nat) (g : input_event) (r : Bool)
    (cs : List input_event) (rest : List Pull) (e m : input_event) (res : Int)
    (w : World (List Pull)) (hF : 2 ≤ F) (hN : cs.length + 1 ≤ N)
    (hneg : res < 0) (hne : res ≠ -EAGAIN)
    (hw : w.dev = Pull.sync m :: (cs.map Pull.event ++ Pull.fail res :: rest)) :
    rangeLoop scripted F g N w { p := true, resync := r, ev := e }
      = .thrown res ((deliver scripted w (e :: cs)).pulledAll
          ((readFlags r, LIBEVDEV_READ_STATUS_SYNC)
            :: (List.replicate cs.length (LIBEVDEV_READ_FLAG_SYNC, LIBEVDEV_READ_STATUS_SUCCESS)
            ++ [(LIBEVDEV_READ_FLAG_SYNC, res)])) rest) := by
  obtain ⟨n, rfl⟩ : ∃ n, N = n + 1 := ⟨N - 1, by omega⟩
  rw [rangeLoop_succ]
  cases cs with
  | nil =>
    simp only [List.map_nil, List.nil_append] at hw
    rw [pump_overrun_fault F hF _ r e m res rest hneg hne (by simp [hw])]
    simp only [deliver_cons, deliver_nil, List.length_nil, List.replicate_zero,
      List.nil_append]
  | cons c cs =>
    simp only [List.map_cons, List.cons_append] at hw
    rw [pump_overrun_event F hF _ r e m c
      (cs.map Pull.event ++ Pull.fail res :: rest) (by simp [hw])]
    simp only [List.length_cons] at hN
    simp only []
    rw [rangeLoop_fault F n g true cs rest c res _ (by omega) (by omega) hneg hne
      (by simp [World.pulledAll])]
    simp only [deliver_cons, deliver_pulledAll, handle_pulledAll, pulledAll_pulledAll,
      List.length_cons, List.replicate_succ, List.cons_append, List.nil_append, readFlags,
      if_true]

theorem drive_fault_normal (es : List input_event) (res : Int) (rest : List Pull)
    (w : World (List Pull)) (pad : EvDev) (g : input_event) (extra : Nat)
    (hneg : res < 0) (hne : res ≠ -EAGAIN) (hpad : pad.toBool = true)
    (hw : w.dev = es.map Pull.event ++ Pull.fail res :: rest) :
    drive scripted (es.length + 1 + extra) w pad g
      = .thrown res ((deliver scripted w es).pulledAll
          (normalPulls es.length ++ [(LIBEVDEV_READ_FLAG_NORMAL, res)]) rest) := by
  rw [drive, begin_eq _ _ _ _ _ hpad]
  cases es with
  | nil =>
    simp only [List.map_nil, List.nil_append] at hw
    rw [pump_fault_scripted _ (by omega) w _ res rest hneg hne hw]
    rfl
  | cons e es =>
    simp only [List.map_cons, List.cons_append] at hw
    obtain ⟨k, hk⟩ : ∃ k, (e :: es).length + 1 + extra = k + 1 :=
      ⟨es.length + 1 + extra, by simp only [List.length_cons]; omega⟩
    rw [hk]
    rw [pump_event scripted k w _ LIBEVDEV_READ_STATUS_SUCCESS e _ (by decide) (by decide)
      (by simp [scripted, hw, Pull.event]; rfl)]
    simp only []
    simp only [List.length_cons] at hk
    rw [rangeLoop_fault (k + 1) (k + 1) g false es rest e res _ (by omega) (by omega)
      hneg hne (by simp [World.pulled])]
    simp only [deliver_cons, deliver_pulledAll, handle_pulledAll, pulledAll_pulledAll,
      pulled_eq_pulledAll, List.length_cons, List.replicate_succ, List.cons_append,
      List.nil_append, normalPulls, readFlags, List.singleton_append]
    rfl

theorem rangeLoop_ordinary_overrun_fault (F N : Nat) (g : input_event)
    (os cs : List input_event) (rest : List Pull) (o m : input_event) (res : Int)
    (w : World (List Pull)) (hF : 2 ≤ F) (hN : os.length + cs.length + 1 ≤ N)
    (hneg : res < 0) (hne : res ≠ -EAGAIN)
    (hw : w.dev = os.map Pull.event ++ Pull.sync m
      :: (cs.map Pull.event ++ Pull.fail res :: rest)) :
    rangeLoop scripted F g N w { p := true, resync := false, ev := o }
      = .thrown res ((deliver scripted w (o :: os ++ cs)).pulledAll
          (normalPulls os.length ++ (LIBEVDEV_READ_FLAG_NORMAL, LIBEVDEV_READ_STATUS_SYNC)
            :: (List.replicate cs.length (LIBEVDEV_READ_FLAG_SYNC, LIBEVDEV_READ_STATUS_SUCCESS)
            ++ [(LIBEVDEV_READ_FLAG_SYNC, res)])) rest) := by
  obtain ⟨f, rfl⟩ : ∃ f, F = f + 1 := ⟨F - 1, by omega⟩
  obtain ⟨n, rfl⟩ : ∃ n, N = os.length + (cs.length + 1 + n) :=
    ⟨N - (os.length + cs.length + 1), by omega⟩
  rw [rangeLoop_through f _ g false os _ o w hw]
  rw [rangeLoop_overrun_fault (f + 1) _ g false cs rest _ m res _ hF (by omega) hneg hne
    (by simp [World.pulledAll])]
  have h2 : (o :: os).dropLast ++ (os.getLastD o :: cs) = o :: os ++ cs := by
    rw [show os.getLastD o :: cs = [os.getLastD o] ++ cs from rfl, ← List.append_assoc,
      dropLast_append_getLastD]
  rw [deliver_pulledAll, pulledAll_pulledAll, ← deliver_append, h2]
  rfl

theorem drive_fault_resync (ords cs : List input_event) (m : input_event) (res : Int)
    (rest : List Pull) (w : World (List Pull)) (pad : EvDev) (g : input_event) (extra : Nat)
    (hneg : res < 0) (hne : res ≠ -EAGAIN) (hpad : pad.toBool = true)
    (hw : w.dev = ords.map Pull.event ++ Pull.sync m
      :: (cs.map Pull.event ++ Pull.fail res :: rest)) :
    drive scripted (ords.length + cs.length + 2 + extra) w pad g
      = .thrown res ((deliver scripted w (ords ++ cs)).pulledAll
          (normalPulls ords.length
            ++ (LIBEVDEV_READ_FLAG_NORMAL, LIBEVDEV_READ_STATUS_SYNC)
            :: (List.replicate cs.length
                  (LIBEVDEV_READ_FLAG_SYNC, LIBEVDEV_READ_STATUS_SUCCESS)
            ++ [(LIBEVDEV_READ_FLAG_SYNC, res)])) rest) := by
  rw [drive, begin_eq _ _ _ _ _ hpad]
  cases ords with
  | nil =>
    simp only [List.map_nil, List.nil_append] at hw
    cases cs with
    | nil =>
      simp only [List.map_nil, List.nil_append] at hw
      rw [pump_overrun_fault _ (by omega) w false g m res rest hneg hne hw]
      rfl
    | cons c cs =>
      simp only [List.map_cons, List.cons_append] at hw
      rw [pump_overrun_event _ (by omega) w false g m c _ hw]
      simp only []
      rw [rangeLoop_fault _ _ g true cs rest c res _ (by omega)
        (by simp only [List.length_cons, List.length_nil]; omega) hneg hne
        (by simp [World.pulledAll])]
      simp only [deliver_cons, deliver_pulledAll, handle_pulledAll, pulledAll_pulledAll,
        List.length_cons, List.replicate_succ, List.cons_append, List.nil_append, normalPulls,
        List.length_nil, List.replicate_zero, readFlags, if_true]
      rfl
  | cons o os =>
    simp only [List.map_cons, List.cons_append] at hw
    obtain ⟨k, hk⟩ : ∃ k, (o :: os).length + cs.length + 2 + extra = k + 1 :=
      ⟨os.length + cs.length + 2 + extra, by simp only [List.length_cons]; omega⟩
    rw [hk]
    rw [pump_event scripted k w _ LIBEVDEV_READ_STATUS_SUCCESS o _ (by decide) (by decide)
      (by simp [scripted, hw, Pull.event]; rfl)]
    simp only []
    simp only [List.length_cons] at hk
    rw [rangeLoop_ordinary_overrun_fault (k + 1) (k + 1) g os cs rest o m res _ (by omega)
      (by omega) hneg hne (by simp [World.pulled])]
    simp only [deliver_cons, deliver_pulledAll, handle_pulledAll, pulledAll_pulledAll,
      pulled_eq_pulledAll, List.length_cons, List.replicate_succ, List.cons_append,
      List.nil_append, normalPulls, readFlags, List.singleton_append]
    rfl

/-- Claim C3: when a pull returns `res` with `res < 0` and `res ≠ -EAGAIN`, `pump` throws
an error carrying exactly `res`, whatever the mode and the state it is called in; in a
drive cycle the events yielded before that pull, in normal mode or during a catch-up, have
been handed to the consumer and nothing is pulled or delivered after it.  Conversely,
whenever `pump` throws, the code thrown is the status of the last pull made and it is
negative and neither `-EAGAIN` nor `LIBEVDEV_READ_STATUS_SYNC` (nor `0`). -/
theorem pump_throws_exactly_on_fault (res : Int) (hneg : res < 0) (hne : res ≠ -EAGAIN) :
    (∀ (σ : Type) (L : Libevdev σ) (f : Nat) (w : World σ) (it : Iter) (ev : input_event)
        (s : σ), L.next_event w.dev (readFlags it.resync) it.ev = (res, ev, s) →
        pump L (f + 1) w it = .thrown res (w.pulled (readFlags it.resync) res s))
    ∧ (∀ (es : List input_event) (rest : List Pull) (w : World (List Pull)) (pad : EvDev)
        (g : input_event) (extra : Nat), pad.toBool = true →
        w.dev = es.map Pull.event ++ Pull.fail res :: rest →
        drive scripted (es.length + 1 + extra) w pad g
          = .thrown res ((deliver scripted w es).pulledAll
              (normalPulls es.length ++ [(LIBEVDEV_READ_FLAG_NORMAL, res)]) rest))
    ∧ (∀ (ords cs : List input_event) (m : input_event) (rest : List Pull)
        (w : World (List Pull)) (pad : EvDev) (g : input_event) (extra : Nat),
        pad.toBool = true →
        w.dev = ords.map Pull.event ++ Pull.sync m
          :: (cs.map Pull.event ++ Pull.fail res :: rest) →
        drive scripted (ords.length + cs.length + 2 + extra) w pad g
          = .thrown res ((deliver scripted w (ords ++ cs)).pulledAll
              (normalPulls ords.length
                ++ (LIBEVDEV_READ_FLAG_NORMAL, LIBEVDEV_READ_STATUS_SYNC)
                :: (List.replicate cs.length
                      (LIBEVDEV_READ_FLAG_SYNC, LIBEVDEV_READ_STATUS_SUCCESS)
                ++ [(LIBEVDEV_READ_FLAG_SYNC, res)])) rest))
    ∧ (∀ (σ : Type) (L : Libevdev σ) (f : Nat) (w w1 : World σ) (it : Iter) (c : Int),
        pump L f w it = .thrown c w1 →
        c < 0 ∧ c ≠ -EAGAIN ∧ c ≠ LIBEVDEV_READ_STATUS_SYNC ∧ c ≠ 0
          ∧ ∃ fl, w1.pulls.getLast? = some (fl, c)) := by
  refine ⟨?_, ?_, ?_, ?_⟩
  · intro σ L f w it ev s h
    exact pump_fault L f w it res ev s hneg hne h
  · intro es rest w pad g extra hpad hw
    exact drive_fault_normal es res rest w pad g extra hneg hne hpad hw
  · intro ords cs m rest w pad g extra hpad hw
    exact drive_fault_resync ords cs m res rest w pad g extra hneg hne hpad hw
  · intro σ L f w w1 it c h
    obtain ⟨h1, h2, h3, h4⟩ := pump_thrown_last L f w w1 it c h
    exact ⟨h1, h2, h3, by omega, h4⟩

theorem pump_throws_exactly_on_fault_witness :
    ((-19 : Int) < 0 ∧ (-19 : Int) ≠ -EAGAIN)
    ∧ drive scripted 2 (World.init [Pull.event btnA_down, Pull.fail (-19), Pull.event btnA_up])
          { p := some 3 } default
        = .thrown (-19) ((deliver scripted
            (World.init [Pull.event btnA_down, Pull.fail (-19), Pull.event btnA_up])
            [btnA_down]).pulledAll
              (normalPulls 1 ++ [(LIBEVDEV_READ_FLAG_NORMAL, -19)]) [Pull.event btnA_up]) :=
  ⟨⟨by decide, by decide⟩,
    (pump_throws_exactly_on_fault (-19) (by decide) (by decide)).2.1 [btnA_down]
      [Pull.event btnA_up]
      (World.init [Pull.event btnA_down, Pull.fail (-19), Pull.event btnA_up])
      { p := some 3 } default 0 rfl rfl⟩

/-! ### Exhaustion and the resynchronisation flag -/

theorem pump_pulls_extend {σ : Type} (L : Libevdev σ) (f : Nat) (w w1 : World σ)
    (it it1 : Iter) (h : pump L f w it = .ok it1 w1) :
    ∃ r more, w1.pulls = w.pulls ++ (readFlags it.resync, r) :: more := by
  induction f generalizing w it with
  | zero => simp [pump] at h
  | succ f ih =>
    rw [pump] at h
    simp only [] at h
    split at h
    · split at h
      · obtain ⟨r, more, hm⟩ := ih _ _ h
        exact ⟨(L.next_event w.dev (readFlags it.resync) it.ev).1,
          (readFlags false, r) :: more, by simp [hm, World.pulled]⟩
      · simp only [Res.ok.injEq] at h
        obtain ⟨-, hw⟩ := h
        subst hw
        exact ⟨(L.next_event w.dev (readFlags it.resync) it.ev).1, [],
          by simp [World.pulled]⟩
    · split at h
      · obtain ⟨r, more, hm⟩ := ih _ _ h
        exact ⟨(L.next_event w.dev (readFlags it.resync) it.ev).1,
          (readFlags true, r) :: more, by simp [hm, World.pulled]⟩
      · split at h
        · simp at h
        · simp only [Res.ok.injEq] at h
          obtain ⟨-, hw⟩ := h
          subst hw
          exact ⟨(L.next_event w.dev (readFlags it.resync) it.ev).1, [],
            by simp [World.pulled]⟩

theorem pump_exhausted {σ : Type} (L : Libevdev σ) (f : Nat) (w w1 : World σ)
    (it it1 : Iter) (hp : it.p = true) (h : pump L f w it = .ok it1 w1)
    (hend : it1.p = false) :
    it1.resync = false
      ∧ w1.pulls.getLast? = some (LIBEVDEV_READ_FLAG_NORMAL, -EAGAIN) := by
  induction f generalizing w it with
  | zero => simp [pump] at h
  | succ f ih =>
    rw [pump] at h
    simp only [] at h
    split at h
    · split at h
      · refine ih _ _ ?_ h
        exact hp
      · rename_i h1 h2
        simp only [Res.ok.injEq] at h
        obtain ⟨hi, hw⟩ := h
        subst hi
        subst hw
        simp only [Bool.not_eq_true] at h2
        rw [h2] at h1
        simp only [readFlags, Bool.false_eq_true, if_false] at h1
        refine ⟨h2, ?_⟩
        simp [World.pulled, h2, h1, readFlags]
    · split at h
      · refine ih _ _ ?_ h
        exact hp
      · split at h
        · simp at h
        · simp only [Res.ok.injEq] at h
          obtain ⟨hi, -⟩ := h
          subst hi
          simp only [hp] at hend
          exact absurd hend (by decide)

/-- Claim C9: an iterator with a session that `pump` leaves exhausted (null session
pointer, so equal to `end`) has its resync flag clear and was stopped by a would-block
answered to a normal-mode pull; a would-block answered in resynchronisation mode does
not end the cycle: `pump` clears the flag and pumps again, so that whenever it then
returns, the would-block was followed by at least one normal-mode pull. -/
theorem exhausted_only_in_normal_mode {σ : Type} (L : Libevdev σ) (f : Nat)
    (w w1 : World σ) (it it1 : Iter) (g : input_event)
    (hp : it.p = true) (h : pump L f w it = .ok it1 w1) :
    (it1.p = false →
      it1.resync = false ∧ it1.eq (EvDev.end g) = true
        ∧ w1.pulls.getLast? = some (LIBEVDEV_READ_FLAG_NORMAL, -EAGAIN))
    ∧ (it1.resync = true → it1.p = true ∧ it1.ne (EvDev.end g) = true)
    ∧ (∀ (k : Nat) (ev : input_event) (s : σ), f = k + 1 → it.resync = true →
        L.next_event w.dev LIBEVDEV_READ_FLAG_SYNC it.ev = (-EAGAIN, ev, s) →
        pump L f w it
            = pump L k (w.pulled LIBEVDEV_READ_FLAG_SYNC (-EAGAIN) s)
                { p := it.p, resync := false, ev := ev }
          ∧ ∃ r more, w1.pulls = w.pulls ++ (LIBEVDEV_READ_FLAG_SYNC, -EAGAIN)
              :: (LIBEVDEV_READ_FLAG_NORMAL, r) :: more) := by
  have hex := pump_exhausted L f w w1 it it1 hp h
  refine ⟨?_, ?_, ?_⟩
  · intro hend
    obtain ⟨h1, h2⟩ := hex hend
    exact ⟨h1, by simp [Iter.eq, EvDev.end, hend], h2⟩
  · intro hr
    have hp1 : it1.p = true := by
      cases hq : it1.p with
      | true => rfl
      | false => rw [(hex hq).1] at hr; exact absurd hr (by decide)
    exact ⟨hp1, by simp [Iter.ne, hp1]⟩
  · intro k ev s hf hr hn
    subst hf
    have hstep := pump_wouldBlock_resync L k w it ev s hr hn
    refine ⟨hstep, ?_⟩
    rw [hstep] at h
    obtain ⟨r, more, hm⟩ := pump_pulls_extend L k _ w1 _ it1 h
    exact ⟨r, more, by simpa [World.pulled, readFlags, LIBEVDEV_READ_FLAG_NORMAL] using hm⟩

theorem exhausted_only_in_normal_mode_witness :
    ((({ p := true, resync := true, ev := btnA_up } : Iter).p = true)
      ∧ pump scripted 2 (World.init [Pull.wouldBlock, Pull.wouldBlock])
          { p := true, resync := true, ev := btnA_up }
        = .ok { p := false, resync := false, ev := btnA_up }
            ((World.init [Pull.wouldBlock, Pull.wouldBlock]).pulledAll
              [(LIBEVDEV_READ_FLAG_SYNC, -EAGAIN), (LIBEVDEV_READ_FLAG_NORMAL, -EAGAIN)] []))
    ∧ (({ p := false, resync := false, ev := btnA_up } : Iter).resync = false
        ∧ ({ p := false, resync := false, ev := btnA_up } : Iter).eq (EvDev.end default) = true
        ∧ ((World.init [Pull.wouldBlock, Pull.wouldBlock]).pulledAll
              [(LIBEVDEV_READ_FLAG_SYNC, -EAGAIN), (LIBEVDEV_READ_FLAG_NORMAL, -EAGAIN)]
              []).pulls.getLast? = some (LIBEVDEV_READ_FLAG_NORMAL, -EAGAIN)) :=
  ⟨⟨rfl, by decide⟩,
    (exhausted_only_in_normal_mode scripted 2 (World.init [Pull.wouldBlock, Pull.wouldBlock])
      ((World.init [Pull.wouldBlock, Pull.wouldBlock]).pulledAll
        [(LIBEVDEV_READ_FLAG_SYNC, -EAGAIN), (LIBEVDEV_READ_FLAG_NORMAL, -EAGAIN)] [])
      { p := true, resync := true, ev := btnA_up }
      { p := false, resync := false, ev := btnA_up } default rfl (by decide)).1 rfl⟩

/-! ### Pulls answered with the overrun status -/

theorem pump_sync_chain (cs : List input_event) (rest : List Pull) (F : Nat)
    (w : World (List Pull)) (r : Bool) (e m : input_event) (hF : cs.length + 3 ≤ F)
    (hw : w.dev = Pull.sync m
      :: (cs.map Pull.sync ++ Pull.wouldBlock :: Pull.wouldBlock :: rest)) :
    pump scripted F w { p := true, resync := r, ev := e }
      = .ok { p := false, resync := false, ev := cs.getLastD m }
          (w.pulledAll ((readFlags r, LIBEVDEV_READ_STATUS_SYNC)
            :: (List.replicate cs.length (LIBEVDEV_READ_FLAG_SYNC, LIBEVDEV_READ_STATUS_SYNC)
            ++ [(LIBEVDEV_READ_FLAG_SYNC, -EAGAIN), (LIBEVDEV_READ_FLAG_NORMAL, -EAGAIN)]))
            rest) := by
  induction cs generalizing w r e m F with
  | nil =>
    simp only [List.map_nil, List.nil_append] at hw
    simp only [List.length_nil] at hF
    rw [pump_overrun_end F (by omega) w r e m rest hw]
    rfl
  | cons c cs ih =>
    simp only [List.map_cons, List.cons_append] at hw
    simp only [List.length_cons] at hF
    obtain ⟨f, rfl⟩ : ∃ f, F = f + 1 := ⟨F - 1, by omega⟩
    rw [pump_sync scripted f w _ m
      (Pull.sync c :: (cs.map Pull.sync ++ Pull.wouldBlock :: Pull.wouldBlock :: rest))
      (by simp [scripted, hw, Pull.sync])]
    rw [ih f _ true m c (by omega) (by simp [World.pulled])]
    simp only [pulled_eq_pulledAll, pulledAll_pulledAll, List.singleton_append,
      List.length_cons, List.replicate_succ, List.cons_append, List.getLastD_cons, readFlags,
      if_true]
    rfl

theorem rangeLoop_sync_chain (F N : Nat) (g : input_event) (os cs : List input_event)
    (rest : List Pull) (o m : input_event) (w : World (List Pull))
    (hF : cs.length + 3 ≤ F) (hN : os.length + 2 ≤ N)
    (hw : w.dev = os.map Pull.event ++ Pull.sync m
      :: (cs.map Pull.sync ++ Pull.wouldBlock :: Pull.wouldBlock :: rest)) :
    rangeLoop scripted F g N w { p := true, resync := false, ev := o }
      = .ok () ((deliver scripted w (o :: os)).pulledAll
          (normalPulls os.length
            ++ (LIBEVDEV_READ_FLAG_NORMAL, LIBEVDEV_READ_STATUS_SYNC)
            :: (List.replicate cs.length (LIBEVDEV_READ_FLAG_SYNC, LIBEVDEV_READ_STATUS_SYNC)
            ++ [(LIBEVDEV_READ_FLAG_SYNC, -EAGAIN), (LIBEVDEV_READ_FLAG_NORMAL, -EAGAIN)]))
          rest) := by
  obtain ⟨f, rfl⟩ : ∃ f, F = f + 1 := ⟨F - 1, by omega⟩
  obtain ⟨n, rfl⟩ : ∃ n, N = os.length + (n + 1 + 1) := ⟨N - (os.length + 2), by omega⟩
  rw [rangeLoop_through f (n + 1 + 1) g false os _ o w hw, rangeLoop_succ]
  rw [pump_sync_chain cs rest (f + 1) _ false _ m hF (by simp [World.pulledAll])]
  simp only [rangeLoop_done]
  rw [handle_pulledAll, pulledAll_pulledAll]
  have hd : handle scripted (deliver scripted w (o :: os).dropLast) (os.getLastD o)
      = deliver scripted w (o :: os) := by
    have h1 := deliver_append scripted w (o :: os).dropLast [os.getLastD o]
    rw [dropLast_append_getLastD] at h1
    rw [h1]; rfl
  rw [hd]
  rfl

theorem drive_sync_status (ords cs : List input_event) (m : input_event) (rest : List Pull)
    (w : World (List Pull)) (pad : EvDev) (g : input_event) (extra : Nat)
    (hpad : pad.toBool = true)
    (hw : w.dev = ords.map Pull.event ++ Pull.sync m
      :: (cs.map Pull.sync ++ Pull.wouldBlock :: Pull.wouldBlock :: rest)) :
    drive scripted (ords.length + cs.length + 3 + extra) w pad g
      = .ok () ((deliver scripted w ords).pulledAll
          (normalPulls ords.length
            ++ (LIBEVDEV_READ_FLAG_NORMAL, LIBEVDEV_READ_STATUS_SYNC)
            :: (List.replicate cs.length (LIBEVDEV_READ_FLAG_SYNC, LIBEVDEV_READ_STATUS_SYNC)
            ++ [(LIBEVDEV_READ_FLAG_SYNC, -EAGAIN), (LIBEVDEV_READ_FLAG_NORMAL, -EAGAIN)]))
          rest) := by
  rw [drive, begin_eq _ _ _ _ _ hpad]
  cases ords with
  | nil =>
    simp only [List.map_nil, List.nil_append] at hw
    rw [pump_sync_chain cs rest _ w false g m
      (by simp only [List.length_nil]; omega) hw]
    obtain ⟨k, hk⟩ : ∃ k, ([] : List input_event).length + cs.length + 3 + extra = k + 1 :=
      ⟨cs.length + 2 + extra, by simp only [List.length_nil]; omega⟩
    rw [hk]
    simp only [rangeLoop_done, deliver_nil, normalPulls, List.length_nil,
      List.replicate_zero, List.nil_append, readFlags]
    rfl
  | cons o os =>
    simp only [List.map_cons, List.cons_append] at hw
    obtain ⟨k, hk⟩ : ∃ k, (o :: os).length + cs.length + 3 + extra = k + 1 :=
      ⟨os.length + cs.length + 3 + extra, by simp only [List.length_cons]; omega⟩
    rw [hk]
    rw [pump_event scripted k w _ LIBEVDEV_READ_STATUS_SUCCESS o _ (by decide) (by decide)
      (by simp [scripted, hw, Pull.event]; rfl)]
    simp only []
    simp only [List.length_cons] at hk
    rw [rangeLoop_sync_chain (k + 1) (k + 1) g os cs rest o m _ (by omega) (by omega)
      (by simp [World.pulled])]
    simp only [deliver_cons, deliver_pulledAll, handle_pulledAll, pulledAll_pulledAll,
      pulled_eq_pulledAll, List.length_cons, List.replicate_succ, List.cons_append,
      List.nil_append, normalPulls, readFlags, List.singleton_append]
    rfl

theorem pump_yield_source {σ : Type} (L : Libevdev σ) (f : Nat) (w w1 : World σ)
    (it it1 : Iter) (h : pump L f w it = .ok it1 w1) (hp1 : it1.p = true) :
    ∃ (s0 : σ) (fl : Int) (buf : input_event) (res : Int) (s : σ),
      L.next_event s0 fl buf = (res, it1.ev, s) ∧ 0 ≤ res ∧ res ≠ LIBEVDEV_READ_STATUS_SYNC
        ∧ w1.dev = s ∧ w1.pulls.getLast? = some (fl, res) := by
  induction f generalizing w it with
  | zero => simp [pump] at h
  | succ f ih =>
    rw [pump] at h
    simp only [] at h
    split at h
    · split at h
      · exact ih _ _ h
      · simp only [Res.ok.injEq] at h
        obtain ⟨hi, -⟩ := h
        subst hi
        simp at hp1
    · split at h
      · exact ih _ _ h
      · split at h
        · simp at h
        · rename_i h1 h2 h3
          simp only [Res.ok.injEq] at h
          obtain ⟨hi, hw⟩ := h
          subst hi
          subst hw
          exact ⟨w.dev, readFlags it.resync, it.ev,
            (L.next_event w.dev (readFlags it.resync) it.ev).1,
            (L.next_event w.dev (readFlags it.resync) it.ev).2.2, rfl, by omega, h2, rfl,
            by simp [World.pulled]⟩

/-- Claim C10: the event stored by a pull that returns `LIBEVDEV_READ_STATUS_SYNC` is never
handed to the consumer: in either mode `pump` sets the resync flag and pulls again without
returning, so over a source that, after the overrun, reports each of its `M` catch-up
events with status `LIBEVDEV_READ_STATUS_SYNC` and then would-block, a drive cycle delivers
only the ordinary events `ords` and none of the overrun or catch-up events.  Whenever
`pump` returns with an event to yield, that event is the buffer left by a pull whose
status is non-negative and not `LIBEVDEV_READ_STATUS_SYNC`, hence `0` for a source that
keeps to libevdev's statuses (`0`, `1` or negative). -/
theorem sync_status_event_never_delivered :
    (∀ (σ : Type) (L : Libevdev σ) (f : Nat) (w : World σ) (it : Iter) (ev : input_event)
        (s : σ),
        L.next_event w.dev (readFlags it.resync) it.ev = (LIBEVDEV_READ_STATUS_SYNC, ev, s) →
        pump L (f + 1) w it
          = pump L f (w.pulled (readFlags it.resync) LIBEVDEV_READ_STATUS_SYNC s)
              { p := it.p, resync := true, ev := ev })
    ∧ (∀ (ords cs : List input_event) (m : input_event) (rest : List Pull)
        (w : World (List Pull)) (pad : EvDev) (g : input_event) (extra : Nat),
        pad.toBool = true →
        w.dev = ords.map Pull.event ++ Pull.sync m
          :: (cs.map Pull.sync ++ Pull.wouldBlock :: Pull.wouldBlock :: rest) →
        drive scripted (ords.length + cs.length + 3 + extra) w pad g
            = .ok () ((deliver scripted w ords).pulledAll
                (normalPulls ords.length
                  ++ (LIBEVDEV_READ_FLAG_NORMAL, LIBEVDEV_READ_STATUS_SYNC)
                  :: (List.replicate cs.length
                        (LIBEVDEV_READ_FLAG_SYNC, LIBEVDEV_READ_STATUS_SYNC)
                  ++ [(LIBEVDEV_READ_FLAG_SYNC, -EAGAIN),
                      (LIBEVDEV_READ_FLAG_NORMAL, -EAGAIN)]))
                rest)
          ∧ ((deliver scripted w ords).pulledAll
                (normalPulls ords.length
                  ++ (LIBEVDEV_READ_FLAG_NORMAL, LIBEVDEV_READ_STATUS_SYNC)
                  :: (List.replicate cs.length
                        (LIBEVDEV_READ_FLAG_SYNC, LIBEVDEV_READ_STATUS_SYNC)
                  ++ [(LIBEVDEV_READ_FLAG_SYNC, -EAGAIN),
                      (LIBEVDEV_READ_FLAG_NORMAL, -EAGAIN)]))
                rest).handled = w.handled ++ ords)
    ∧ (∀ (σ : Type) (L : Libevdev σ) (f : Nat) (w w1 : World σ) (it it1 : Iter),
        pump L f w it = .ok it1 w1 → it1.p = true →
        ∃ (s0 : σ) (fl : Int) (buf : input_event) (res : Int) (s : σ),
          L.next_event s0 fl buf = (res, it1.ev, s) ∧ 0 ≤ res
            ∧ res ≠ LIBEVDEV_READ_STATUS_SYNC
            ∧ ((∀ (s1 : σ) (fl1 : Int) (b1 : input_event),
                  (L.next_event s1 fl1 b1).1 ≤ LIBEVDEV_READ_STATUS_SYNC) →
                res = LIBEVDEV_READ_STATUS_SUCCESS)
            ∧ w1.pulls.getLast? = some (fl, res)) := by
  refine ⟨?_, ?_, ?_⟩
  · intro σ L f w it ev s h
    exact pump_sync L f w it ev s h
  · intro ords cs m rest w pad g extra hpad hw
    exact ⟨drive_sync_status ords cs m rest w pad g extra hpad hw, by simp [World.pulledAll]⟩
  · intro σ L f w w1 it it1 h hp1
    obtain ⟨s0, fl, buf, res, s, h1, h2, h3, -, h5⟩ := pump_yield_source L f w w1 it it1 h hp1
    refine ⟨s0, fl, buf, res, s, h1, h2, h3, ?_, h5⟩
    intro hL
    have hle := hL s0 fl buf
    rw [h1] at hle
    simp only [LIBEVDEV_READ_STATUS_SYNC] at hle h3
    simp only [LIBEVDEV_READ_STATUS_SUCCESS]
    omega

theorem sync_status_event_never_delivered_witness :
    ((({ p := some 3 } : EvDev).toBool = true)
      ∧ (World.init [Pull.event btnA_down, Pull.sync synDropped, Pull.sync btnA_up,
            Pull.wouldBlock, Pull.wouldBlock]).dev
          = [btnA_down].map Pull.event ++ Pull.sync synDropped
            :: ([btnA_up].map Pull.sync ++ Pull.wouldBlock :: Pull.wouldBlock :: []))
    ∧ (drive scripted 5
          (World.init [Pull.event btnA_down, Pull.sync synDropped, Pull.sync btnA_up,
            Pull.wouldBlock, Pull.wouldBlock])
          { p := some 3 } default
        = .ok () ((deliver scripted
              (World.init [Pull.event btnA_down, Pull.sync synDropped, Pull.sync btnA_up,
                Pull.wouldBlock, Pull.wouldBlock])
              [btnA_down]).pulledAll
            (normalPulls 1
              ++ (LIBEVDEV_READ_FLAG_NORMAL, LIBEVDEV_READ_STATUS_SYNC)
              :: (List.replicate 1 (LIBEVDEV_READ_FLAG_SYNC, LIBEVDEV_READ_STATUS_SYNC)
              ++ [(LIBEVDEV_READ_FLAG_SYNC, -EAGAIN), (LIBEVDEV_READ_FLAG_NORMAL, -EAGAIN)]))
            [])
      ∧ ((deliver scripted
              (World.init [Pull.event btnA_down, Pull.sync synDropped, Pull.sync btnA_up,
                Pull.wouldBlock, Pull.wouldBlock])
              [btnA_down]).pulledAll
            (normalPulls 1
              ++ (LIBEVDEV_READ_FLAG_NORMAL, LIBEVDEV_READ_STATUS_SYNC)
              :: (List.replicate 1 (LIBEVDEV_READ_FLAG_SYNC, LIBEVDEV_READ_STATUS_SYNC)
              ++ [(LIBEVDEV_READ_FLAG_SYNC, -EAGAIN), (LIBEVDEV_READ_FLAG_NORMAL, -EAGAIN)]))
            []).handled = [] ++ [btnA_down]) :=
  ⟨⟨rfl, rfl⟩,
    sync_status_event_never_delivered.2.1 [btnA_down] [btnA_up] synDropped []
      (World.init [Pull.event btnA_down, Pull.sync synDropped, Pull.sync btnA_up,
        Pull.wouldBlock, Pull.wouldBlock])
      { p := some 3 } default 0 rfl rfl⟩

/-! ## Discovery -/

theorem scan_skip (c : Candidate) (rest : List Candidate) (h : c.opens = false) :
    scan (c :: rest) = ((scan rest).1, skippedActs [c] ++ (scan rest).2) := by
  obtain ⟨name, dev, node, fd, err⟩ := c
  cases dev with
  | false => simp [scan, skippedActs]
  | true =>
    cases node with
    | none => simp [scan, skippedActs]
    | some nd =>
      have hfd : fd = -1 := by simpa [Candidate.opens] using h
      subst hfd
      simp [scan, skippedActs]

theorem skippedActs_append (as bs : List Candidate) :
    skippedActs (as ++ bs) = skippedActs as ++ skippedActs bs := by
  simp [skippedActs]

theorem scan_skip_all (pre rest : List Candidate) (h : ∀ x ∈ pre, x.opens = false) :
    scan (pre ++ rest) = ((scan rest).1, skippedActs pre ++ (scan rest).2) := by
  induction pre with
  | nil => simp [skippedActs]
  | cons c pre ih =>
    have hc : c.opens = false := h c (List.mem_cons_self _ _)
    have hpre : ∀ x ∈ pre, x.opens = false := fun x hx => h x (List.mem_cons_of_mem _ hx)
    rw [List.cons_append, scan_skip c _ hc, ih hpre]
    have := skippedActs_append [c] pre
    simp only [List.singleton_append] at this
    simp only [this, List.append_assoc]

theorem scan_none_opens (cs : List Candidate) (h : ∀ x ∈ cs, x.opens = false) :
    (scan cs).1 = .ok { p := none } := by
  have := scan_skip_all cs [] h
  rw [List.append_nil] at this
  rw [this]
  rfl

/-- Claim C8: when `udev_new` or `udev_enumerate_new` gives no object, or no entry of the
catalog (an empty catalog included) both resolves to a device node and opens, `open_pad`
returns the empty handle, whose `operator bool` is false, and `main` writes "No game
controllers detected", returns 1, and neither adds a descriptor to an epoll instance nor
waits on one, pulls from a session or calls the consumer. -/
theorem no_device_found (u : Udev)
    (h : u.udev = false ∨ u.devenum = false ∨ ∀ x ∈ u.entries, x.opens = false) :
    (open_pad u).1 = .ok { p := none }
      ∧ ({ p := none } : EvDev).toBool = false
      ∧ ∀ (σ : Type) (L : Libevdev σ) (fuel : Nat) (g : input_event)
          (polls : List (Int × Nat)) (w : World σ),
          main L u fuel g polls w = (Exit.code 1, w.print "No game controllers detected\n")
            ∧ (w.print "No game controllers detected\n").out
                = w.out ++ ["No game controllers detected\n"]
            ∧ (w.print "No game controllers detected\n").registered = w.registered
            ∧ (w.print "No game controllers detected\n").waits = w.waits
            ∧ (w.print "No game controllers detected\n").pulls = w.pulls
            ∧ (w.print "No game controllers detected\n").handled = w.handled := by
  have hop : (open_pad u).1 = .ok { p := none } := by
    unfold open_pad
    by_cases h1 : u.udev = false
    · simp [h1]
    · by_cases h2 : u.devenum = false
      · simp [h1, h2]
      · have h3 : ∀ x ∈ u.entries, x.opens = false := by
          rcases h with h | h | h
          · exact absurd h h1
          · exact absurd h h2
          · exact h
        simp only [Bool.not_eq_false] at h1 h2
        simp [h1, h2, scan_none_opens u.entries h3]
  refine ⟨hop, rfl, ?_⟩
  intro σ L fuel g polls w
  refine ⟨?_, rfl, rfl, rfl, rfl, rfl⟩
  simp [main, hop, EvDev.toBool]

theorem no_device_found_witness :
    (({ udev := true, devenum := true, entries := [] } : Udev).udev = false
      ∨ ({ udev := true, devenum := true, entries := [] } : Udev).devenum = false
      ∨ ∀ x ∈ ({ udev := true, devenum := true, entries := [] } : Udev).entries,
          x.opens = false)
    ∧ (open_pad { udev := true, devenum := true, entries := [] }).1 = .ok { p := none } :=
  ⟨Or.inr (Or.inr (by simp)),
    (no_device_found { udev := true, devenum := true, entries := [] }
      (Or.inr (Or.inr (by simp)))).1⟩

/-! ## The readiness loop -/

theorem rangeLoop_thrown_neg {σ : Type} (L : Libevdev σ) (f n : Nat) (g : input_event)
    (w w1 : World σ) (it : Iter) (c : Int) (h : rangeLoop L f g n w it = .thrown c w1) :
    c < 0 ∧ c ≠ -EAGAIN := by
  induction n generalizing w it with
  | zero => simp [rangeLoop] at h
  | succ n ih =>
    rw [rangeLoop] at h
    split at h
    · split at h
      · exact ih _ _ h
      · rename_i c1 w2 hp
        simp only [Res.thrown.injEq] at h
        obtain ⟨hc, -⟩ := h
        subst hc
        have := pump_thrown_last L f _ _ _ _ hp
        exact ⟨this.1, this.2.1⟩
      · simp at h
    · simp at h

theorem drive_thrown_neg {σ : Type} (L : Libevdev σ) (f : Nat) (g : input_event)
    (w w1 : World σ) (pad : EvDev) (c : Int) (h : drive L f w pad g = .thrown c w1) :
    c < 0 ∧ c ≠ -EAGAIN := by
  unfold drive at h
  split at h
  · exact rangeLoop_thrown_neg L f f g _ _ _ _ h
  · rename_i c1 w2 hp
    simp only [Res.thrown.injEq] at h
    obtain ⟨hc, -⟩ := h
    subst hc
    have := pump_thrown_last L f _ _ _ _ hp
    exact ⟨this.1, this.2.1⟩
  · simp at h

/-- Claim C7, as stated, fails: the same process ends with `main` returning 0 when
`epoll_wait` fails, and with an uncaught `std::system_error` when the drive cycle of a
readable notification meets a decode fault (`-EIO` here). -/
theorem decode_fault_differs_from_wait_failure :
    (main_loop scripted 1 default { p := some 3 } [(-1, 0)] (World.init [Pull.fail (-5)])).1
        = Exit.code 0
      ∧ (main_loop scripted 1 default { p := some 3 } [(1, EPOLLIN)]
            (World.init [Pull.fail (-5)])).1 = Exit.uncaught (-5)
      ∧ (main_loop scripted 1 default { p := some 3 } [(1, EPOLLIN)]
            (World.init [Pull.fail (-5)])).1
          ≠ (main_loop scripted 1 default { p := some 3 } [(-1, 0)]
              (World.init [Pull.fail (-5)])).1 := by
  refine ⟨by decide, by decide, by decide⟩

/-- Claim C7, amended: a failure of the readiness wait (`epoll_wait` returning less than 1)
breaks out of the loop, so that `main` returns 0 having written nothing more; a decode
fault raised in the drive cycle of a readable notification leaves `main` as an uncaught
`std::system_error` carrying the negative status of the faulty pull; the two outcomes are
never the same. -/
theorem decode_fault_is_uncaught {σ : Type} (L : Libevdev σ) (fuel : Nat) (g : input_event)
    (pad : EvDev) (n : Int) (events : Nat) (rest : List (Int × Nat)) (w w2 : World σ)
    (c : Int) :
    (n < 1 → main_loop L fuel g pad ((n, events) :: rest) w = (Exit.code 0, w.waited)
        ∧ w.waited.out = w.out)
    ∧ (1 ≤ n → events &&& EPOLLHUP = 0 → events &&& EPOLLERR = 0 →
        events &&& EPOLLIN ≠ 0 → drive L fuel w.waited pad g = .thrown c w2 →
        main_loop L fuel g pad ((n, events) :: rest) w = (Exit.uncaught c, w2)
          ∧ c < 0 ∧ Exit.uncaught c ≠ Exit.code 0) := by
  constructor
  · intro hn
    exact ⟨by simp [main_loop, hn, World.waited], rfl⟩
  · intro hn hup herr hin hd
    have hn1 : ¬ n < 1 := by omega
    refine ⟨?_, (drive_thrown_neg L fuel g _ _ pad c hd).1, by simp⟩
    simp [main_loop, hn1, hup, herr, hin, hd]

theorem decode_fault_is_uncaught_witness :
    ((1 : Int) ≤ 1 ∧ EPOLLIN &&& EPOLLHUP = 0 ∧ EPOLLIN &&& EPOLLERR = 0
      ∧ EPOLLIN &&& EPOLLIN ≠ 0
      ∧ drive scripted 1 (World.init [Pull.fail (-5)]).waited { p := some 3 } default
          = .thrown (-5) ((World.init [Pull.fail (-5)]).waited.pulledAll
              [(LIBEVDEV_READ_FLAG_NORMAL, -5)] []))
    ∧ (main_loop scripted 1 default { p := some 3 } [(1, EPOLLIN)]
          (World.init [Pull.fail (-5)])
        = (Exit.uncaught (-5), (World.init [Pull.fail (-5)]).waited.pulledAll
              [(LIBEVDEV_READ_FLAG_NORMAL, -5)] [])
      ∧ (-5 : Int) < 0 ∧ Exit.uncaught (-5) ≠ Exit.code 0) :=
  ⟨⟨by decide, by decide, by decide, by decide, by decide⟩,
    (decode_fault_is_uncaught scripted 1 default { p := some 3 } 1 EPOLLIN []
      (World.init [Pull.fail (-5)])
      ((World.init [Pull.fail (-5)]).waited.pulledAll [(LIBEVDEV_READ_FLAG_NORMAL, -5)] [])
      (-5)).2 (by decide) (by decide) (by decide) (by decide) (by decide)⟩

end UdevJoy
